import Mathlib

/-!
Verification development for the dir-snapshot library
(https://github.com/supercat1337/dir-snapshot).

The JavaScript sources are shallowly embedded: every definition below is a
direct translation of a function of the repository, with JavaScript `Map`s
rendered as insertion-ordered association lists, JSON values as a small
structured type, machine work (file reading, hashing, stat) abstracted into
explicit input data, and fallible code returning `Except`.  Timestamps are
ISO-8601 strings compared lexicographically, exactly as the JavaScript `<`
operator compares them.
-/

/-! ## Data model (src/fileentry.js)

`FileEntry` carries the fields of the `FileEntry` class.  `size` and `sha256`
are `Option`s: they are `undefined` on directory entries, and JavaScript
`a !== b` on two possibly-`undefined` values is `Option` disequality.
`type` stays a plain string, as in the parsed JSON. -/

structure FileEntry where
  path : String
  type : String
  size : Option Nat
  ctime : String
  mtime : String
  sha256 : Option String
  depth : Nat
deriving DecidableEq, Repr

/-- The two header fields `compareSnapshots` consults (src/snapshot.js header). -/
structure SnapHeader where
  rootPath : String
  createdAt : String
deriving DecidableEq, Repr

/-- An opened snapshot as the comparator consumes it: header plus the
path-keyed entry map (a JavaScript `Map`, modelled as an insertion-ordered
association list with unique keys). -/
structure SnapshotData where
  header : SnapHeader
  entries : List (String × FileEntry)
deriving DecidableEq, Repr

/-- `Map.prototype.get` on the entry map. -/
def mapGet (entries : List (String × FileEntry)) (p : String) : Option FileEntry :=
  (entries.find? (fun pe => pe.1 == p)).map (fun pe => pe.2)

/-! ## Report (src/snapshot_comparator.js, class Report) -/

structure MovedPair where
  src : FileEntry
  dst : FileEntry
deriving DecidableEq, Repr

structure ChangedPair where
  oldValue : FileEntry
  newValue : FileEntry
deriving DecidableEq, Repr

structure Period where
  start : String
  «end» : String
deriving DecidableEq, Repr

structure Report where
  added : List FileEntry := []
  deleted : List FileEntry := []
  moved : List MovedPair := []
  metaDataChanged : List ChangedPair := []
  contentChanged : List ChangedPair := []
  period : Period := ⟨"", ""⟩
deriving DecidableEq, Repr

/-! ## compareSnapshots (src/snapshot_comparator.js)

The comparison proper, after both files have been opened.  The first loop over
the newer snapshot's entries, the second loop over the older one, and the
move-detection double loop are translated one to one. -/

/-- One iteration of the first loop (`for (const [path, entry] of
snap_newer.entries)`): classify the entry at `pe` against the older map. -/
def classifyStep (older : List (String × FileEntry)) (summary : Report)
    (pe : String × FileEntry) : Report :=
  match mapGet older pe.1 with
  | none => { summary with added := summary.added ++ [pe.2] }
  | some old_entry =>
    if pe.2.type ≠ old_entry.type then
      { summary with deleted := summary.deleted ++ [old_entry],
                     added := summary.added ++ [pe.2] }
    else if pe.2.type = "file" ∧ pe.2.sha256 ≠ old_entry.sha256 then
      { summary with contentChanged := summary.contentChanged ++ [⟨old_entry, pe.2⟩] }
    else if pe.2.type = "file" ∧ pe.2.size ≠ old_entry.size then
      { summary with contentChanged := summary.contentChanged ++ [⟨old_entry, pe.2⟩] }
    else if pe.2.ctime ≠ old_entry.ctime then
      { summary with metaDataChanged := summary.metaDataChanged ++ [⟨old_entry, pe.2⟩] }
    else if pe.2.mtime ≠ old_entry.mtime then
      { summary with metaDataChanged := summary.metaDataChanged ++ [⟨old_entry, pe.2⟩] }
    else summary

/-- One iteration of the second loop (`for (const [path, old_entry] of
snap_older.entries)`): record deletions. -/
def deletedStep (newer : List (String × FileEntry)) (summary : Report)
    (pe : String × FileEntry) : Report :=
  match mapGet newer pe.1 with
  | none => { summary with deleted := summary.deleted ++ [pe.2] }
  | some _ => summary

/-- The two classification loops of `compareSnapshots`, lines 80-135. -/
def diffStage (older newer : List (String × FileEntry)) (init : Report) : Report :=
  older.foldl (deletedStep newer) (newer.foldl (classifyStep older) init)

/-- JavaScript array indexing: out-of-range (including negative) gives
`undefined`, i.e. `none`. -/
def jsGet (l : List FileEntry) (i : Int) : Option FileEntry :=
  if h : 0 ≤ i ∧ i.toNat < l.length then some (l.get ⟨i.toNat, h.2⟩) else none

/-- `Array.prototype.splice(i, 1)`: delete one element; a negative index
counts from the end of the array (`max(length + i, 0)`). -/
def jsSpliceOne (l : List FileEntry) (i : Int) : List FileEntry :=
  l.eraseIdx (if 0 ≤ i then i.toNat else ((l.length : Int) + i).toNat)

/-- The inner loop (`for (let j = 0; ...)`) of the move-detection pass.

The JavaScript body reads `summary.deleted[i].type`; when `i` has been driven
to `-1` by the `i--` after a splice, `summary.deleted[-1]` is `undefined` and
the property read throws a `TypeError`, which we surface as an `Except.error`.
`added[j]` is only read behind the short-circuiting
`deleted[i].type === "file" &&`, mirrored by the nested match.  On a match the
body pushes the moved pair, splices both lists, decrements both indices, and
the loop's `j++` then resumes at the numerically unchanged `j`.

The `fuel` argument only drives the recursion; each iteration strictly
decreases `added.length - j`, so `added.length + 1` iterations always
suffice and the fuel branch is unreachable from `moveOuter`. -/
def moveInner (fuel : Nat) (deleted added : List FileEntry) (moved : List MovedPair)
    (i j : Int) :
    Except String (List FileEntry × List FileEntry × List MovedPair × Int) :=
  match fuel with
  | 0 => .error "fuel exhausted"
  | fuel + 1 =>
    if j < (added.length : Int) then
      match jsGet deleted i with
      | none => .error "TypeError: cannot read properties of undefined"
      | some d =>
        if d.type = "file" then
          match jsGet added j with
          | none => .error "TypeError: cannot read properties of undefined"
          | some a =>
            if a.type = "file" ∧ d.size = a.size ∧ d.sha256 = a.sha256 then
              moveInner fuel (jsSpliceOne deleted i) (jsSpliceOne added j)
                (moved ++ [⟨d, a⟩]) (i - 1) (j - 1 + 1)
            else
              moveInner fuel deleted added moved i (j + 1)
        else
          moveInner fuel deleted added moved i (j + 1)
    else
      .ok (deleted, added, moved, i)

/-- The outer loop (`for (let i = 0; ...)`) of the move-detection pass.
Each outer iteration decreases `deleted.length - i` by exactly one (the inner
loop preserves it), so `deleted.length + 1` iterations always suffice. -/
def moveOuter (fuel : Nat) (deleted added : List FileEntry) (moved : List MovedPair)
    (i : Int) :
    Except String (List FileEntry × List FileEntry × List MovedPair) :=
  match fuel with
  | 0 => .error "fuel exhausted"
  | fuel + 1 =>
    if i < (deleted.length : Int) then
      match moveInner (added.length + 1) deleted added moved i 0 with
      | .error e => .error e
      | .ok (deleted2, added2, moved2, i2) => moveOuter fuel deleted2 added2 moved2 (i2 + 1)
    else
      .ok (deleted, added, moved)

/-- The JavaScript `<` operator on strings: lexicographic comparison of the
character sequences, a proper prefix comparing smaller. -/
def jsStrLtList : List Char → List Char → Bool
  | [], [] => false
  | [], _ :: _ => true
  | _ :: _, [] => false
  | a :: as, b :: bs => if a < b then true else if b < a then false else jsStrLtList as bs

/-- JavaScript `a < b` on two strings. -/
def jsStrLt (a b : String) : Bool := jsStrLtList a.data b.data

/-- `snap_older`: the argument with the lexicographically smaller `createdAt`. -/
def olderOf (s1 s2 : SnapshotData) : SnapshotData :=
  if jsStrLt s1.header.createdAt s2.header.createdAt then s1 else s2

/-- `snap_newer`: the argument with the larger `createdAt`. -/
def newerOf (s1 s2 : SnapshotData) : SnapshotData :=
  if jsStrLt s1.header.createdAt s2.header.createdAt then s2 else s1

/-- The fresh `Report` with `period` filled from the ordered snapshots
(`summary.period.start = snap_older...; summary.period.end = snap_newer...`). -/
def initialSummary (s1 s2 : SnapshotData) : Report :=
  { period := ⟨(olderOf s1 s2).header.createdAt, (newerOf s1 s2).header.createdAt⟩ }

/-- `compareSnapshots`, after both snapshots have been opened: the two
precondition checks, the `createdAt` ordering, the two classification loops,
and the move-detection pass.  A thrown JavaScript error is an `Except.error`;
a returned `Report` is `Except.ok`. -/
def compareSnapshots (s1 s2 : SnapshotData) : Except String Report :=
  if s1.header.rootPath ≠ s2.header.rootPath then
    .error ("Snapshots are not for the same directory: " ++ s1.header.rootPath
      ++ " vs " ++ s2.header.rootPath)
  else if s1.header.createdAt = s2.header.createdAt then
    .error ("Snapshots are the same: " ++ s1.header.createdAt)
  else
    let summary := diffStage (olderOf s1 s2).entries (newerOf s1 s2).entries
      (initialSummary s1 s2)
    match moveOuter (summary.deleted.length + 1) summary.deleted summary.added
        summary.moved 0 with
    | .error e => .error e
    | .ok (deleted2, added2, moved2) =>
      .ok { summary with deleted := deleted2, added := added2, moved := moved2 }

/-! ## Spec-side classification

`classifySpec` restates, from the specification's words, the single
classification an entry present in both snapshots receives: the checks run in
strict priority order (type change > content (sha256, then size) > ctime >
mtime) and short-circuit on the first difference; an entry identical in all
compared fields receives none.  It is deliberately written from the spec, to
be compared against `diffStage`, which is translated from the code. -/

inductive EntryChange where
  | typeChanged
  | contentChanged
  | metaDataChanged
deriving DecidableEq, Repr

def classifySpec (o n : FileEntry) : Option EntryChange :=
  if n.type ≠ o.type then some .typeChanged
  else if n.type = "file" ∧ (n.sha256 ≠ o.sha256 ∨ n.size ≠ o.size) then some .contentChanged
  else if n.ctime ≠ o.ctime ∨ n.mtime ≠ o.mtime then some .metaDataChanged
  else none

/-- Well-formed entry map: keys are pairwise distinct (a JavaScript `Map`)
and each value's `path` field is its key (`entries.set(data.path, data)`). -/
def WFEntries (entries : List (String × FileEntry)) : Prop :=
  (entries.map Prod.fst).Nodup ∧ ∀ pe ∈ entries, pe.2.path = pe.1

/-- No element of any of a report's five lists mentions path `p`. -/
def UnreferencedIn (r : Report) (p : String) : Prop :=
  r.added.countP (fun e => e.path == p) = 0 ∧
  r.deleted.countP (fun e => e.path == p) = 0 ∧
  r.moved.countP (fun q => q.src.path == p) = 0 ∧
  r.moved.countP (fun q => q.dst.path == p) = 0 ∧
  r.contentChanged.countP (fun q => q.oldValue.path == p) = 0 ∧
  r.metaDataChanged.countP (fun q => q.oldValue.path == p) = 0

/-! ## The snapshot file format

A snapshot file is a sequence of lines.  Each line either parses as a JSON
object (`Line.obj`, the parsed key/value list, duplicate keys already
resolved last-wins as `JSON.parse` does), is non-empty text on which
`JSON.parse` throws (`Line.bad`), or is an empty line (`Line.empty`, on which
`JSON.parse` also throws but which the after-footer state tolerates). -/

inductive JVal where
  | str (s : String)
  | num (n : Int)
deriving DecidableEq, Repr

abbrev JObj := List (String × JVal)

inductive Line where
  | obj (o : JObj)
  | bad
  | empty
deriving DecidableEq, Repr

/-- Property lookup on a parsed JSON object. -/
def getField (o : JObj) (k : String) : Option JVal :=
  (o.find? (fun kv => kv.1 == k)).map (fun kv => kv.2)

/-- JavaScript truthiness of a property value: absent (`undefined`), the
empty string and `0` are falsy. -/
def truthy (v : Option JVal) : Bool :=
  match v with
  | none => false
  | some (.str s) => s ≠ ""
  | some (.num n) => n ≠ 0

/-- `hasProperties` (src/tools.js): every listed key is present. -/
def hasProperties (o : JObj) (props : List String) : Bool :=
  props.all (fun k => (getField o k).isSome)

/-- `isIsoDateString` (src/tools.js): the
`^\d{4}-\d{2}-\d{2}T\d{2}:\d{2}:\d{2}\.\d{3}Z$` regular expression. -/
def isIsoDateString (s : String) : Bool :=
  match s.data with
  | [y1, y2, y3, y4, '-', mo1, mo2, '-', d1, d2, 'T', h1, h2, ':', mi1, mi2, ':',
     s1, s2, '.', f1, f2, f3, 'Z'] =>
    [y1, y2, y3, y4, mo1, mo2, d1, d2, h1, h2, mi1, mi2, s1, s2, f1, f2, f3].all Char.isDigit
  | _ => false

/-- `isHeader` (src/snapshot_validator.js) on a parsed object. -/
def isHeader (o : JObj) : Bool :=
  (getField o "type" == some (.str "dir-snapshot")) &&
  (match getField o "createdAt" with
   | some (.str s) => isIsoDateString s
   | _ => false) &&
  hasProperties o ["version", "type", "createdAt", "machineId", "rootPath"]

/-- `isDirectoryEntry` (src/snapshot_validator.js) on a parsed object. -/
def isDirectoryEntry (o : JObj) : Bool :=
  hasProperties o ["path", "type", "ctime", "mtime", "depth"]

/-- `isFooter` (src/snapshot_validator.js) on a parsed object. -/
def isFooter (o : JObj) : Bool :=
  hasProperties o ["status"]

/-- Rendering of a JSON value into a template literal, as in
`console.warn(`Snapshot has status: ${footer.status}`)`. -/
def jvalText (v : JVal) : String :=
  match v with
  | .str s => s
  | .num n => toString n

/-! ## validateSnapshot (src/snapshot_validator.js)

The single-pass state machine.  Any throw inside the `for await` loop — a
`JSON.parse` failure, an invalid line for the current state, or a
non-`success` footer — is caught by the surrounding `try`, leaving `isValid`
false.  The loop running out of lines sets `isValid = true` regardless of the
state reached.  `console.warn` output is accumulated so that the surfacing of
a failed footer's `message` can be stated. -/

inductive VState where
  | expectHeader
  | expectFooterOrEntry
  | expectNoData
deriving DecidableEq, Repr

def validateLoop : VState → List String → List Line → Bool × List String
  | _, warnings, [] => (true, warnings)
  | .expectHeader, warnings, line :: rest =>
    match line with
    | .obj o => if isHeader o then validateLoop .expectFooterOrEntry warnings rest
                else (false, warnings)
    | _ => (false, warnings)
  | .expectFooterOrEntry, warnings, line :: rest =>
    match line with
    | .obj o =>
      if isFooter o then
        if getField o "status" == some (.str "success") then
          validateLoop .expectNoData warnings rest
        else
          let warnings := warnings ++
            [("Snapshot has status: " ++ (getField o "status").elim "undefined" jvalText
              ++ ", but should be \"success\"")]
          let warnings := if truthy (getField o "message") then
              warnings ++ [("Snapshot has message: "
                ++ (getField o "message").elim "undefined" jvalText)]
            else warnings
          (false, warnings)
      else if isDirectoryEntry o then validateLoop .expectFooterOrEntry warnings rest
      else (false, warnings)
    | _ => (false, warnings)
  | .expectNoData, warnings, line :: rest =>
    match line with
    | .empty => validateLoop .expectNoData warnings rest
    | _ => (false, warnings)

/-- `validateSnapshot` with its `console.warn` log. -/
def validateSnapshotRun (lines : List Line) : Bool × List String :=
  validateLoop .expectHeader [] lines

/-- `validateSnapshot`: the boolean the promise resolves with. -/
def validateSnapshot (lines : List Line) : Bool :=
  (validateSnapshotRun lines).1

/-! ## readSnapshot (src/snapshot_reader.js)

Full parse by structural discrimination.  A record with a truthy `rootPath`
is the header, a truthy `status` the footer, a truthy `path` an entry
(`entries.set(data.path, data)` — a duplicate path overwrites in place).
`JSON.parse` throwing, or header or footer never observed, is a throw. -/

def jmapSet (entries : List (JVal × JObj)) (k : JVal) (v : JObj) : List (JVal × JObj) :=
  if entries.any (fun kv => kv.1 == k) then
    entries.map (fun kv => if kv.1 == k then (k, v) else kv)
  else entries ++ [(k, v)]

def readLoop : Option JObj → List (JVal × JObj) → Option JObj → List Line →
    Except String (Option JObj × List (JVal × JObj) × Option JObj)
  | header, entries, footer, [] => .ok (header, entries, footer)
  | header, entries, footer, line :: rest =>
    match line with
    | .obj data =>
      if truthy (getField data "rootPath") then readLoop (some data) entries footer rest
      else if truthy (getField data "status") then readLoop header entries (some data) rest
      else if truthy (getField data "path") then
        match getField data "path" with
        | some p => readLoop header (jmapSet entries p data) footer rest
        | none => readLoop header entries footer rest
      else readLoop header entries footer rest
    | _ => .error "SyntaxError: unexpected input to JSON.parse"

def readSnapshot (lines : List Line) :
    Except String (JObj × List (JVal × JObj) × JObj) :=
  match readLoop none [] none lines with
  | .error e => .error e
  | .ok (header, entries, footer) =>
    match header, footer with
    | some h, some f => .ok (h, entries, f)
    | _, _ => .error "Invalid snapshot file format."

/-! ## Snapshot (src/snapshot.js)

The stateful wrapper.  Private fields become a state record; each getter
throws until `open()` has succeeded. -/

structure SnapshotState where
  isOpened : Bool
  header : Option JObj
  entries : List (JVal × JObj)
  footer : Option JObj
deriving DecidableEq, Repr

/-- A freshly constructed `Snapshot`: `#isOpened = false`, `#entries` an
empty map, `#header`/`#footer` undefined. -/
def snapshotInit : SnapshotState :=
  ⟨false, none, [], none⟩

def snapshotHeaderGet (st : SnapshotState) : Except String (Option JObj) :=
  if st.isOpened = false then .error "Snapshot is not opened." else .ok st.header

def snapshotEntriesGet (st : SnapshotState) : Except String (List (JVal × JObj)) :=
  if st.isOpened = false then .error "Snapshot is not opened." else .ok st.entries

def snapshotFooterGet (st : SnapshotState) : Except String (Option JObj) :=
  if st.isOpened = false then .error "Snapshot is not opened." else .ok st.footer

/-- `Snapshot.prototype.open`: reopening throws; a failed validation throws;
a `readSnapshot` failure is caught and resolves to `false` with the instance
left unopened; otherwise the instance is populated and resolves `true`. -/
def snapshotOpen (st : SnapshotState) (lines : List Line) :
    Except String (SnapshotState × Bool) :=
  if st.isOpened then
    .error "Cannot open snapshot again. Create a new instance of Snapshot instead."
  else if validateSnapshot lines = false then
    .error "Snapshot file is invalid."
  else
    match readSnapshot lines with
    | .ok (h, es, f) =>
      .ok ({ isOpened := true, header := some h, entries := es, footer := some f }, true)
    | .error _ => .ok ({ st with isOpened := false }, false)

/-! ## The Writer (src/snapshot_creator.js / src/scanner.js)

The directory tree the traversal walks is explicit data: a list of named
nodes.  `readdir` on an unreadable directory throws, which aborts the whole
walk; entries already written stay in the file.  File hashing and `lstat`
results are carried on the nodes.  `resolve(join(a, b))` on the normalized
absolute paths used here is string concatenation with a slash. -/

inductive FsNode where
  | file (name : String) (ctime mtime : String) (size : Nat) (sha256 : String)
  | dir (name : String) (ctime mtime : String) (readable : Bool) (children : List FsNode)

/-- An exclusion rule: an exact resolved path, or a regular expression
(abstracted as the predicate it decides on the candidate path). -/
inductive ExcludeRule where
  | exact (path : String)
  | pattern (test : String → Bool)

/-- `shouldExclude` (src/snapshot_creator.js): first matching rule wins. -/
def shouldExclude (absolutePath : String) (excludePaths : List ExcludeRule) : Bool :=
  excludePaths.any (fun rule =>
    match rule with
    | .exact s => s == absolutePath
    | .pattern test => test absolutePath)

/-- The record `processDirectory` builds for one child: the `FileEntry`
constructor call plus, for files, the hash and size assignments. -/
def mkRecord (absolutePath : String) (curDepth : Nat) : FsNode → FileEntry
  | .file _ ctime mtime size sha256 =>
    ⟨absolutePath, "file", some size, ctime, mtime, some sha256, curDepth⟩
  | .dir _ ctime mtime _ _ =>
    ⟨absolutePath, "directory", none, ctime, mtime, none, curDepth⟩

/-- Is the depth bound (`Infinity` when `none`) still open at `curDepth`?
This is the `currentDepth < depth` guard. -/
def belowDepth (curDepth : Nat) (depth : Option Nat) : Bool :=
  match depth with
  | none => true
  | some d => curDepth < d

/-- The body of `processDirectory` (src/snapshot_creator.js lines 61-105):
the loop over `readdir`'s items.  For each non-excluded item one record is
emitted, then, for a directory with `currentDepth < depth`, the recursive
call runs — its prologue (the exclusion check on the directory itself, then
`readdir`, which throws on an unreadable directory) is inlined here.  The
result is the list of records written, in order, and the error that aborted
the walk, if any. -/
def processItems (excludePaths : List ExcludeRule) (depth : Option Nat)
    (currentPath : String) (currentDepth : Nat) :
    List FsNode → List FileEntry × Option String
  | [] => ([], none)
  | item :: rest =>
    let absolutePath := currentPath ++ "/" ++
      (match item with | .file name _ _ _ _ => name | .dir name _ _ _ _ => name)
    if shouldExclude absolutePath excludePaths then
      processItems excludePaths depth currentPath currentDepth rest
    else
      let record := mkRecord absolutePath currentDepth item
      match item with
      | .file _ _ _ _ _ =>
        let (tail, err) := processItems excludePaths depth currentPath currentDepth rest
        (record :: tail, err)
      | .dir _ _ _ readable children =>
        if belowDepth currentDepth depth then
          if shouldExclude absolutePath excludePaths then
            let (tail, err) := processItems excludePaths depth currentPath currentDepth rest
            (record :: tail, err)
          else if readable = false then
            ([record], some ("EACCES: permission denied, scandir " ++ absolutePath))
          else
            let (sub, errSub) := processItems excludePaths depth absolutePath
              (currentDepth + 1) children
            match errSub with
            | some e => (record :: sub, some e)
            | none =>
              let (tail, err) := processItems excludePaths depth currentPath currentDepth rest
              (record :: sub ++ tail, err)
        else
          let (tail, err) := processItems excludePaths depth currentPath currentDepth rest
          (record :: tail, err)
termination_by items => sizeOf items

/-- `processDirectory` called on the scan root: the exclusion check on the
root itself, the `readdir` of the root, then the loop over its items. -/
def processDirectory (excludePaths : List ExcludeRule) (depth : Option Nat)
    (rootPath : String) (rootReadable : Bool) (items : List FsNode) :
    List FileEntry × Option String :=
  if shouldExclude rootPath excludePaths then ([], none)
  else if rootReadable = false then
    ([], some ("EACCES: permission denied, scandir " ++ rootPath))
  else processItems excludePaths depth rootPath 0 items

/-- `JSON.stringify` of an emitted record, as the validator re-parses it:
fields in the `FileEntry` constructor's insertion order, `undefined`
(`none`) fields omitted. -/
def fileEntryToJObj (e : FileEntry) : JObj :=
  [("path", .str e.path), ("type", .str e.type)]
    ++ (match e.size with | some n => [("size", JVal.num n)] | none => [])
    ++ [("ctime", .str e.ctime), ("mtime", .str e.mtime)]
    ++ (match e.sha256 with | some s => [("sha256", JVal.str s)] | none => [])
    ++ [("depth", JVal.num e.depth)]

/-- The JavaScript object spread `{...base, ...extra}`: keys of `extra`
override those of `base`; new keys are appended in order. -/
def mergeObj (base extra : JObj) : JObj :=
  base.map (fun kv => (kv.1, ((getField extra kv.1).getD kv.2)))
    ++ extra.filter (fun kv => (getField base kv.1).isNone)

/-- The header object `createSnapshot`/`scanToFile` writes: the five
reserved fields with the caller metadata spread over them. -/
def snapshotHeaderObj (createdAt machineId rootPath : String) (metadata : JObj) : JObj :=
  mergeObj
    [("version", .str "1.0"), ("type", .str "dir-snapshot"),
     ("createdAt", .str createdAt), ("machineId", .str machineId),
     ("rootPath", .str rootPath)]
    metadata

/-- `createSnapshot` (src/snapshot_creator.js): header line, the records the
traversal wrote before finishing or failing, and a terminal footer —
`{status: success}` and result `true` when the walk completed,
`{status: error, message}` and result `false` when it threw. -/
def createSnapshot (createdAt machineId : String) (metadata : JObj)
    (rootPath : String) (rootReadable : Bool) (items : List FsNode)
    (excludePaths : List ExcludeRule) (maxDepth : Option Nat) : List Line × Bool :=
  let header := snapshotHeaderObj createdAt machineId rootPath metadata
  let (records, err) := processDirectory excludePaths maxDepth rootPath rootReadable items
  match err with
  | none =>
    (Line.obj header :: records.map (fun e => Line.obj (fileEntryToJObj e))
      ++ [Line.obj [("status", .str "success")]], true)
  | some msg =>
    (Line.obj header :: records.map (fun e => Line.obj (fileEntryToJObj e))
      ++ [Line.obj [("status", .str "error"), ("message", .str msg)]], false)

/-- `scanToFile` (src/scanner.js): identical traversal and header, but no
`try`/`catch` and no footer line — the file ends after the entry records.
The second component is the error the unprotected traversal would throw. -/
def scanToFile (createdAt machineId : String) (metadata : JObj)
    (rootPath : String) (rootReadable : Bool) (items : List FsNode)
    (excludePaths : List ExcludeRule) (maxDepth : Option Nat) : List Line × Option String :=
  let header := snapshotHeaderObj createdAt machineId rootPath metadata
  let (records, err) := processDirectory excludePaths maxDepth rootPath rootReadable items
  (Line.obj header :: records.map (fun e => Line.obj (fileEntryToJObj e)), err)

/-! ## Spec-side traversal listing

`dfsAll` lists, from the specification's words, every node of the tree in
depth-first preorder together with the depth it would be recorded at, with no
depth bound.  The depth-limiting claim is then: the code's traversal with
`maxDepth = m` emits exactly the nodes of depth at most `m`, in this order. -/

def dfsAll (currentPath : String) (currentDepth : Nat) :
    List FsNode → List FileEntry
  | [] => []
  | item :: rest =>
    let absolutePath := currentPath ++ "/" ++
      (match item with | .file name _ _ _ _ => name | .dir name _ _ _ _ => name)
    match item with
    | .file _ _ _ _ _ =>
      mkRecord absolutePath currentDepth item :: dfsAll currentPath currentDepth rest
    | .dir _ _ _ _ children =>
      mkRecord absolutePath currentDepth item
        :: (dfsAll absolutePath (currentDepth + 1) children
             ++ dfsAll currentPath currentDepth rest)
termination_by items => sizeOf items

/-- Every directory of the tree is readable. -/
def allReadable : List FsNode → Bool
  | [] => true
  | .file _ _ _ _ _ :: rest => allReadable rest
  | .dir _ _ _ readable children :: rest =>
    readable && allReadable children && allReadable rest
termination_by items => sizeOf items

/-- Did `compareSnapshots` resolve with a report (`true`) or reject (`false`)? -/
def exceptIsOk : Except String Report → Bool
  | .ok _ => true
  | .error _ => false

/-- The five views of a report that concern one path `p`: the added and
deleted entries whose `path` is `p`, the content and metadata pairs whose
`oldValue.path` is `p`, and the whole `moved` list. -/
def reportFiltersAt (p : String) (r : Report) :
    List FileEntry × List FileEntry × List ChangedPair × List ChangedPair × List MovedPair :=
  (r.added.filter (fun e => e.path == p),
   r.deleted.filter (fun e => e.path == p),
   r.contentChanged.filter (fun q => q.oldValue.path == p),
   r.metaDataChanged.filter (fun q => q.oldValue.path == p),
   r.moved)

/-- How often path `p` is referenced across the three lists the
move-detection pass rewrites. -/
def pathRefs (p : String) (deleted added : List FileEntry) (moved : List MovedPair) : Nat :=
  deleted.countP (fun e => e.path == p) + added.countP (fun e => e.path == p) +
    moved.countP (fun q => q.src.path == p) + moved.countP (fun q => q.dst.path == p)

/-! ## Helper lemmas -/

theorem jsStrLtList_flip : ∀ as bs : List Char, as ≠ bs → jsStrLtList as bs = false →
    jsStrLtList bs as = true
  | [], [], h, _ => absurd rfl h
  | [], _ :: _, _, h2 => by simp [jsStrLtList] at h2
  | _ :: _, [], _, _ => by simp [jsStrLtList]
  | a :: as, b :: bs, h, h2 => by
    by_cases hab : a < b
    · simp [jsStrLtList, hab] at h2
    · by_cases hba : b < a
      · simp [jsStrLtList, hba]
      · have hEq : a = b := le_antisymm (not_lt.mp hba) (not_lt.mp hab)
        subst hEq
        simp [jsStrLtList, lt_irrefl] at h2 ⊢
        exact jsStrLtList_flip as bs (by intro hc; exact h (by rw [hc])) h2

theorem jsStrLt_flip (a b : String) (h : a ≠ b) (h2 : jsStrLt a b = false) :
    jsStrLt b a = true := by
  apply jsStrLtList_flip
  · intro hc
    exact h (by cases a; cases b; simp_all)
  · exact h2

theorem jsStrLtList_asymm : ∀ as bs : List Char, jsStrLtList as bs = true →
    jsStrLtList bs as = false
  | [], [], h => by simp [jsStrLtList] at h
  | [], _ :: _, _ => by simp [jsStrLtList]
  | _ :: _, [], h => by simp [jsStrLtList] at h
  | a :: as, b :: bs, h => by
    by_cases hab : a < b
    · have hba : ¬b < a := lt_asymm hab
      simp [jsStrLtList, hab, hba]
    · by_cases hba : b < a
      · simp [jsStrLtList, hab, hba] at h
      · have hEq : a = b := le_antisymm (not_lt.mp hba) (not_lt.mp hab)
        subst hEq
        simp [jsStrLtList, lt_irrefl] at h ⊢
        exact jsStrLtList_asymm as bs h

theorem jsStrLt_asymm (a b : String) (h : jsStrLt a b = true) : jsStrLt b a = false :=
  jsStrLtList_asymm a.data b.data h

theorem classifyStep_period (older : List (String × FileEntry)) (s : Report)
    (pe : String × FileEntry) : (classifyStep older s pe).period = s.period := by
  cases h : mapGet older pe.1 with
  | none => simp [classifyStep, h]
  | some o =>
    simp only [classifyStep, h]
    split_ifs <;> rfl

theorem deletedStep_period (newer : List (String × FileEntry)) (s : Report)
    (pe : String × FileEntry) : (deletedStep newer s pe).period = s.period := by
  cases h : mapGet newer pe.1 <;> simp [deletedStep, h]

theorem foldl_classifyStep_period (older : List (String × FileEntry)) :
    ∀ (l : List (String × FileEntry)) (init : Report),
      (l.foldl (classifyStep older) init).period = init.period
  | [], _ => rfl
  | pe :: rest, init => by
    rw [List.foldl_cons, foldl_classifyStep_period older rest, classifyStep_period]

theorem foldl_deletedStep_period (newer : List (String × FileEntry)) :
    ∀ (l : List (String × FileEntry)) (init : Report),
      (l.foldl (deletedStep newer) init).period = init.period
  | [], _ => rfl
  | pe :: rest, init => by
    rw [List.foldl_cons, foldl_deletedStep_period newer rest, deletedStep_period]

theorem diffStage_period (older newer : List (String × FileEntry)) (init : Report) :
    (diffStage older newer init).period = init.period := by
  unfold diffStage
  rw [foldl_deletedStep_period, foldl_classifyStep_period]

theorem olderOf_comm (s1 s2 : SnapshotData)
    (hne : s1.header.createdAt ≠ s2.header.createdAt) : olderOf s1 s2 = olderOf s2 s1 := by
  unfold olderOf
  cases hlt : jsStrLt s1.header.createdAt s2.header.createdAt with
  | true => simp [hlt, jsStrLt_asymm _ _ hlt]
  | false => simp [hlt, jsStrLt_flip _ _ hne hlt]

theorem newerOf_comm (s1 s2 : SnapshotData)
    (hne : s1.header.createdAt ≠ s2.header.createdAt) : newerOf s1 s2 = newerOf s2 s1 := by
  unfold newerOf
  cases hlt : jsStrLt s1.header.createdAt s2.header.createdAt with
  | true => simp [hlt, jsStrLt_asymm _ _ hlt]
  | false => simp [hlt, jsStrLt_flip _ _ hne hlt]

theorem mapGet_path {entries : List (String × FileEntry)} (hw : WFEntries entries)
    {p : String} {o : FileEntry} (h : mapGet entries p = some o) : o.path = p := by
  unfold mapGet at h
  cases hf : entries.find? (fun pe => pe.1 == p) with
  | none => rw [hf] at h; cases h
  | some pe =>
    rw [hf] at h
    cases h
    have hkey : pe.1 = p := by
      have := List.find?_some hf
      simpa using this
    have hmem : pe ∈ entries := List.mem_of_find?_eq_some hf
    rw [hw.2 pe hmem, hkey]

theorem mapGet_split {entries : List (String × FileEntry)} (hw : WFEntries entries)
    {p : String} {o : FileEntry} (h : mapGet entries p = some o) :
    ∃ l1 l2, entries = l1 ++ (p, o) :: l2 ∧
      p ∉ l1.map Prod.fst ∧ p ∉ l2.map Prod.fst := by
  unfold mapGet at h
  cases hf : entries.find? (fun pe => pe.1 == p) with
  | none => rw [hf] at h; cases h
  | some pe =>
    rw [hf] at h
    cases h
    have hkey : pe.1 = p := by simpa using List.find?_some hf
    have hmem : pe ∈ entries := List.mem_of_find?_eq_some hf
    have hpe : pe = (p, pe.2) := by rw [← hkey]
    obtain ⟨l1, l2, rfl⟩ := List.append_of_mem hmem
    refine ⟨l1, l2, by rw [← hpe], ?_, ?_⟩
    · have := hw.1
      simp only [List.map_append, List.map_cons] at this
      have h2 := List.nodup_middle.mp (by simpa [hkey] using this)
      intro hc
      exact (List.nodup_cons.mp h2).1 (by simp [hc])
    · have := hw.1
      simp only [List.map_append, List.map_cons] at this
      have h2 := List.nodup_middle.mp (by simpa [hkey] using this)
      intro hc
      exact (List.nodup_cons.mp h2).1 (by simp [hc])

theorem classifyStep_filters_other (older : List (String × FileEntry)) (s : Report)
    (pe : String × FileEntry) (p : String) (hw : WFEntries older)
    (hpath : pe.2.path = pe.1) (hne : pe.1 ≠ p) :
    reportFiltersAt p (classifyStep older s pe) = reportFiltersAt p s := by
  have hb : (pe.2.path == p) = false := by
    rw [hpath]; exact beq_eq_false_iff_ne.mpr hne
  cases h : mapGet older pe.1 with
  | none => simp [classifyStep, h, reportFiltersAt, List.filter_append, hb]
  | some o =>
    have ho : (o.path == p) = false := by
      rw [mapGet_path hw h]; exact beq_eq_false_iff_ne.mpr hne
    simp only [classifyStep, h]
    split_ifs <;> simp [reportFiltersAt, List.filter_append, hb, ho]

theorem foldl_classifyStep_filters_other (older : List (String × FileEntry)) (p : String)
    (hw : WFEntries older) :
    ∀ (l : List (String × FileEntry)) (init : Report),
      (∀ pe ∈ l, pe.2.path = pe.1) → (∀ pe ∈ l, pe.1 ≠ p) →
      reportFiltersAt p (l.foldl (classifyStep older) init) = reportFiltersAt p init
  | [], _, _, _ => rfl
  | pe :: rest, init, hpaths, hnes => by
    rw [List.foldl_cons,
      foldl_classifyStep_filters_other older p hw rest _
        (fun x hx => hpaths x (List.mem_cons_of_mem pe hx))
        (fun x hx => hnes x (List.mem_cons_of_mem pe hx)),
      classifyStep_filters_other older init pe p hw (hpaths pe (List.mem_cons_self pe rest))
        (hnes pe (List.mem_cons_self pe rest))]

theorem classifyStep_filters_at (older : List (String × FileEntry)) (s : Report)
    (p : String) (o n : FileEntry) (hw : WFEntries older)
    (hn : n.path = p) (ho : mapGet older p = some o) :
    reportFiltersAt p (classifyStep older s (p, n)) =
      ((reportFiltersAt p s).1 ++ (if classifySpec o n = some .typeChanged then [n] else []),
       (reportFiltersAt p s).2.1 ++ (if classifySpec o n = some .typeChanged then [o] else []),
       (reportFiltersAt p s).2.2.1 ++
         (if classifySpec o n = some .contentChanged then [⟨o, n⟩] else []),
       (reportFiltersAt p s).2.2.2.1 ++
         (if classifySpec o n = some .metaDataChanged then [⟨o, n⟩] else []),
       (reportFiltersAt p s).2.2.2.2) := by
  have hopath : o.path = p := mapGet_path hw ho
  have hbn : (n.path == p) = true := by rw [hn]; exact beq_self_eq_true p
  have hbo : (o.path == p) = true := by rw [hopath]; exact beq_self_eq_true p
  simp only [classifyStep, ho]
  unfold classifySpec
  split_ifs with h1 h2 h3 h4 h5 <;>
    simp_all [reportFiltersAt, List.filter_append, hbn, hbo]

theorem phaseA_filters (older newer : List (String × FileEntry)) (p : String)
    (o n : FileEntry) (init : Report) (hwo : WFEntries older) (hwn : WFEntries newer)
    (ho : mapGet older p = some o) (hn : mapGet newer p = some n) :
    reportFiltersAt p (newer.foldl (classifyStep older) init) =
      ((reportFiltersAt p init).1 ++ (if classifySpec o n = some .typeChanged then [n] else []),
       (reportFiltersAt p init).2.1 ++ (if classifySpec o n = some .typeChanged then [o] else []),
       (reportFiltersAt p init).2.2.1 ++
         (if classifySpec o n = some .contentChanged then [⟨o, n⟩] else []),
       (reportFiltersAt p init).2.2.2.1 ++
         (if classifySpec o n = some .metaDataChanged then [⟨o, n⟩] else []),
       (reportFiltersAt p init).2.2.2.2) := by
  obtain ⟨l1, l2, rfl, hp1, hp2⟩ := mapGet_split hwn hn
  have hnpath : n.path = p := by
    have := hwn.2 (p, n) (by simp)
    simpa using this
  have hw1 : ∀ pe ∈ l1, pe.2.path = pe.1 := fun pe hpe => hwn.2 pe (by simp [hpe])
  have hw2 : ∀ pe ∈ l2, pe.2.path = pe.1 := fun pe hpe => hwn.2 pe (by simp [hpe])
  have hne1 : ∀ pe ∈ l1, pe.1 ≠ p := by
    intro pe hpe hc
    exact hp1 (by rw [← hc]; exact List.mem_map_of_mem Prod.fst hpe)
  have hne2 : ∀ pe ∈ l2, pe.1 ≠ p := by
    intro pe hpe hc
    exact hp2 (by rw [← hc]; exact List.mem_map_of_mem Prod.fst hpe)
  rw [List.foldl_append, List.foldl_cons,
    foldl_classifyStep_filters_other older p hwo l2 _ hw2 hne2,
    classifyStep_filters_at older _ p o n hwo hnpath ho,
    foldl_classifyStep_filters_other older p hwo l1 init hw1 hne1]

theorem deletedStep_filters (newer : List (String × FileEntry)) (s : Report)
    (pe : String × FileEntry) (p : String) (n : FileEntry)
    (hn : mapGet newer p = some n) (hpath : pe.2.path = pe.1) :
    reportFiltersAt p (deletedStep newer s pe) = reportFiltersAt p s := by
  cases h : mapGet newer pe.1 with
  | none =>
    have hne : pe.1 ≠ p := fun hc => by rw [hc, hn] at h; cases h
    have hb : (pe.2.path == p) = false := by
      rw [hpath]; exact beq_eq_false_iff_ne.mpr hne
    simp [deletedStep, h, reportFiltersAt, List.filter_append, hb]
  | some _ => simp [deletedStep, h, reportFiltersAt]

theorem foldl_deletedStep_filters (newer : List (String × FileEntry)) (p : String)
    (n : FileEntry) (hn : mapGet newer p = some n) :
    ∀ (l : List (String × FileEntry)) (init : Report),
      (∀ pe ∈ l, pe.2.path = pe.1) →
      reportFiltersAt p (l.foldl (deletedStep newer) init) = reportFiltersAt p init
  | [], _, _ => rfl
  | pe :: rest, init, hpaths => by
    rw [List.foldl_cons,
      foldl_deletedStep_filters newer p n hn rest _
        (fun x hx => hpaths x (List.mem_cons_of_mem pe hx)),
      deletedStep_filters newer init pe p n hn (hpaths pe (List.mem_cons_self pe rest))]

theorem diffStage_filters (older newer : List (String × FileEntry)) (p : String)
    (o n : FileEntry) (init : Report) (hwo : WFEntries older) (hwn : WFEntries newer)
    (ho : mapGet older p = some o) (hn : mapGet newer p = some n) :
    reportFiltersAt p (diffStage older newer init) =
      ((reportFiltersAt p init).1 ++ (if classifySpec o n = some .typeChanged then [n] else []),
       (reportFiltersAt p init).2.1 ++ (if classifySpec o n = some .typeChanged then [o] else []),
       (reportFiltersAt p init).2.2.1 ++
         (if classifySpec o n = some .contentChanged then [⟨o, n⟩] else []),
       (reportFiltersAt p init).2.2.2.1 ++
         (if classifySpec o n = some .metaDataChanged then [⟨o, n⟩] else []),
       (reportFiltersAt p init).2.2.2.2) := by
  unfold diffStage
  rw [foldl_deletedStep_filters newer p n hn older _ hwo.2,
    phaseA_filters older newer p o n init hwo hwn ho hn]

theorem countP_eraseIdx (f : FileEntry → Bool) :
    ∀ (l : List FileEntry) (k : Nat) (hk : k < l.length),
      (l.eraseIdx k).countP f + (if f (l.get ⟨k, hk⟩) then 1 else 0) = l.countP f
  | x :: xs, 0, _ => by
    simp [List.eraseIdx, List.countP_cons]
  | x :: xs, k + 1, hk => by
    have ih := countP_eraseIdx f xs k (by simpa using hk)
    simp only [List.eraseIdx, List.countP_cons, List.get]
    omega

theorem countP_jsSpliceOne (f : FileEntry → Bool) (l : List FileEntry) (i : Int)
    (x : FileEntry) (h : jsGet l i = some x) :
    (jsSpliceOne l i).countP f + (if f x then 1 else 0) = l.countP f := by
  unfold jsGet at h
  split at h
  · next hcond =>
    cases h
    unfold jsSpliceOne
    rw [if_pos hcond.1]
    exact countP_eraseIdx f l i.toNat hcond.2
  · cases h

theorem moveInner_pathRefs (p : String) :
    ∀ (fuel : Nat) (deleted added : List FileEntry) (moved : List MovedPair) (i j : Int)
      (d2 a2 : List FileEntry) (m2 : List MovedPair) (i2 : Int),
      moveInner fuel deleted added moved i j = .ok (d2, a2, m2, i2) →
      pathRefs p d2 a2 m2 = pathRefs p deleted added moved
  | 0, _, _, _, _, _, _, _, _, _, h => by cases h
  | fuel + 1, deleted, added, moved, i, j, d2, a2, m2, i2, h => by
    rw [moveInner] at h
    split at h
    · cases hd : jsGet deleted i with
      | none => rw [hd] at h; cases h
      | some d =>
        rw [hd] at h
        simp only [] at h
        split at h
        · cases ha : jsGet added j with
          | none => rw [ha] at h; cases h
          | some a =>
            rw [ha] at h
            simp only [] at h
            split at h
            · have ih := moveInner_pathRefs p fuel _ _ _ _ _ _ _ _ _ h
              rw [ih]
              have hcd := countP_jsSpliceOne (fun e => e.path == p) deleted i d hd
              have hca := countP_jsSpliceOne (fun e => e.path == p) added j a ha
              unfold pathRefs
              simp only [List.countP_append, List.countP_cons, List.countP_nil]
              cases hb1 : (d.path == p) <;> cases hb2 : (a.path == p) <;>
                simp only [hb1, hb2, if_true, if_false] at hcd hca ⊢ <;> omega
            · exact moveInner_pathRefs p fuel _ _ _ _ _ _ _ _ _ h
        · exact moveInner_pathRefs p fuel _ _ _ _ _ _ _ _ _ h
    · cases h
      rfl

theorem moveOuter_pathRefs (p : String) :
    ∀ (fuel : Nat) (deleted added : List FileEntry) (moved : List MovedPair) (i : Int)
      (d2 a2 : List FileEntry) (m2 : List MovedPair),
      moveOuter fuel deleted added moved i = .ok (d2, a2, m2) →
      pathRefs p d2 a2 m2 = pathRefs p deleted added moved
  | 0, _, _, _, _, _, _, _, h => by cases h
  | fuel + 1, deleted, added, moved, i, d2, a2, m2, h => by
    rw [moveOuter] at h
    split at h
    · cases hmi : moveInner (added.length + 1) deleted added moved i 0 with
      | error e => rw [hmi] at h; cases h
      | ok res =>
        obtain ⟨di, ai, mi, ii⟩ := res
        rw [hmi] at h
        simp only [] at h
        have h1 := moveInner_pathRefs p _ _ _ _ _ _ _ _ _ _ hmi
        have h2 := moveOuter_pathRefs p fuel _ _ _ _ _ _ _ h
        rw [h2, h1]
    · cases h
      rfl

/-! ## The claims -/

/-- C1: For every entry path present in both the older and the newer
snapshot, the classification loops assign at most one classification, in
strict priority order with short-circuit (type change, then sha256/size
content change, then ctime/mtime metadata change): the path's entries land
in exactly the lists `classifySpec` picks — on a type change the old entry
in `deleted` and the new one in `added`, on a content change the single pair
in `contentChanged`, on a metadata change the single pair in
`metaDataChanged` — and a path whose type, size, hash, ctime and mtime are
all identical between the snapshots is referenced nowhere in the final
Report. -/
theorem c1_classification_priority (s1 s2 : SnapshotData) (r : Report)
    (hwo : WFEntries (olderOf s1 s2).entries) (hwn : WFEntries (newerOf s1 s2).entries)
    (hok : compareSnapshots s1 s2 = .ok r)
    (p : String) (o n : FileEntry)
    (ho : mapGet (olderOf s1 s2).entries p = some o)
    (hn : mapGet (newerOf s1 s2).entries p = some n) :
    reportFiltersAt p (diffStage (olderOf s1 s2).entries (newerOf s1 s2).entries
        (initialSummary s1 s2)) =
      ((if classifySpec o n = some .typeChanged then [n] else []),
       (if classifySpec o n = some .typeChanged then [o] else []),
       (if classifySpec o n = some .contentChanged then [⟨o, n⟩] else []),
       (if classifySpec o n = some .metaDataChanged then [⟨o, n⟩] else []),
       ([] : List MovedPair)) ∧
    (classifySpec o n = none → UnreferencedIn r p) := by
  have hstage := diffStage_filters (olderOf s1 s2).entries (newerOf s1 s2).entries p o n
    (initialSummary s1 s2) hwo hwn ho hn
  have hinit : reportFiltersAt p (initialSummary s1 s2) = ([], [], [], [], []) := rfl
  rw [hinit] at hstage
  simp only [List.nil_append] at hstage
  refine ⟨hstage, fun hnone => ?_⟩
  unfold compareSnapshots at hok
  split_ifs at hok
  revert hok
  generalize hsum : diffStage (olderOf s1 s2).entries (newerOf s1 s2).entries
    (initialSummary s1 s2) = summary
  rw [hsum] at hstage
  cases hmv : moveOuter (summary.deleted.length + 1) summary.deleted summary.added
      summary.moved 0 with
  | error e =>
    intro hok
    simp only [hmv] at hok
    exact absurd hok (by simp)
  | ok res =>
    obtain ⟨d2, a2, m2⟩ := res
    intro hok
    simp only [hmv] at hok
    cases hok
    rw [hnone] at hstage
    simp only [reportFiltersAt, Prod.mk.injEq, reduceCtorEq, if_neg] at hstage
    obtain ⟨hA, hD, hC, hM, hMv⟩ := hstage
    have hcons := moveOuter_pathRefs p _ _ _ _ _ _ _ _ hmv
    have hzero : pathRefs p summary.deleted summary.added summary.moved = 0 := by
      unfold pathRefs
      rw [List.countP_eq_length_filter, List.countP_eq_length_filter, hA, hD, hMv]
      simp
    rw [hzero] at hcons
    unfold pathRefs at hcons
    refine ⟨?_, ?_, ?_, ?_, ?_, ?_⟩
    · simp only []
      omega
    · simp only []
      omega
    · simp only []
      omega
    · simp only []
      omega
    · simp only [List.countP_eq_length_filter, hC]
      rfl
    · simp only [List.countP_eq_length_filter, hM]
      rfl

/-- Witness for C1 at a concrete pair of snapshots sharing one unchanged
entry: that path is referenced nowhere in the returned Report. -/
theorem c1_classification_priority_witness :
    UnreferencedIn
      { period := ⟨"2024-01-01T00:00:00.000Z", "2024-01-02T00:00:00.000Z"⟩ }
      "/r/same.txt" :=
  (c1_classification_priority
    ⟨⟨"/r", "2024-01-01T00:00:00.000Z"⟩,
      [("/r/same.txt", ⟨"/r/same.txt", "file", some 1, "c", "m", some "h", 0⟩)]⟩
    ⟨⟨"/r", "2024-01-02T00:00:00.000Z"⟩,
      [("/r/same.txt", ⟨"/r/same.txt", "file", some 1, "c", "m", some "h", 0⟩)]⟩
    { period := ⟨"2024-01-01T00:00:00.000Z", "2024-01-02T00:00:00.000Z"⟩ }
    (by unfold WFEntries; decide) (by unfold WFEntries; decide) rfl
    "/r/same.txt"
    ⟨"/r/same.txt", "file", some 1, "c", "m", some "h", 0⟩
    ⟨"/r/same.txt", "file", some 1, "c", "m", some "h", 0⟩
    rfl rfl).2 rfl

/-- C2: the claim that a deleted file and an added file of equal size and
sha256 are always reclassified into a single moved pair fails on the code:
with one moved file and one genuinely new file iterated after it, the inner
loop resumes after the splices with `i = -1`, reads
`summary.deleted[-1].type`, and the comparison rejects with a TypeError
instead of returning a Report. -/
theorem c2_move_detection_crashes :
    compareSnapshots
      ⟨⟨"/r", "2024-01-01T00:00:00.000Z"⟩,
        [("/r/file2.txt", ⟨"/r/file2.txt", "file", some 1, "c1", "m1", some "h", 0⟩)]⟩
      ⟨⟨"/r", "2024-01-02T00:00:00.000Z"⟩,
        [("/r/renamed2.txt", ⟨"/r/renamed2.txt", "file", some 1, "c1", "m1", some "h", 0⟩),
         ("/r/new.txt", ⟨"/r/new.txt", "file", some 2, "c2", "m2", some "g", 0⟩)]⟩
      = .error "TypeError: cannot read properties of undefined" := rfl

/-- C3: with matching root paths and distinct creation timestamps, the two
call orders run the identical computation — each call orders the snapshots
by `createdAt`, not by argument position — so the results (Report or
rejection) are equal outright. -/
theorem c3_compare_order_irrelevant (s1 s2 : SnapshotData)
    (hroot : s1.header.rootPath = s2.header.rootPath)
    (hne : s1.header.createdAt ≠ s2.header.createdAt) :
    compareSnapshots s1 s2 = compareSnapshots s2 s1 := by
  unfold compareSnapshots
  rw [if_neg (not_not_intro hroot), if_neg (not_not_intro hroot.symm),
    if_neg hne, if_neg (Ne.symm hne), olderOf_comm s1 s2 hne, newerOf_comm s1 s2 hne]
  unfold initialSummary
  rw [olderOf_comm s1 s2 hne, newerOf_comm s1 s2 hne]

/-- Witness for C3 at a concrete pair of valid snapshots. -/
theorem c3_compare_order_irrelevant_witness :
    compareSnapshots
      ⟨⟨"/r", "2024-01-01T00:00:00.000Z"⟩,
        [("/r/a.txt", ⟨"/r/a.txt", "file", some 1, "c", "m", some "h", 0⟩)]⟩
      ⟨⟨"/r", "2024-01-02T00:00:00.000Z"⟩,
        [("/r/a.txt", ⟨"/r/a.txt", "file", some 2, "c", "m", some "g", 0⟩)]⟩ =
    compareSnapshots
      ⟨⟨"/r", "2024-01-02T00:00:00.000Z"⟩,
        [("/r/a.txt", ⟨"/r/a.txt", "file", some 2, "c", "m", some "g", 0⟩)]⟩
      ⟨⟨"/r", "2024-01-01T00:00:00.000Z"⟩,
        [("/r/a.txt", ⟨"/r/a.txt", "file", some 1, "c", "m", some "h", 0⟩)]⟩ :=
  c3_compare_order_irrelevant _ _ rfl (by decide)

/-- C4: a Report returned by `compareSnapshots` carries
`period.start` equal to the older snapshot's `createdAt` and `period.end`
equal to the newer one's, the two snapshots ordered by `createdAt`. -/
theorem c4_report_period (s1 s2 : SnapshotData) (r : Report)
    (hok : compareSnapshots s1 s2 = .ok r) :
    r.period.start = (olderOf s1 s2).header.createdAt ∧
    r.period.«end» = (newerOf s1 s2).header.createdAt := by
  unfold compareSnapshots at hok
  split_ifs at hok
  revert hok
  generalize hsum : diffStage (olderOf s1 s2).entries (newerOf s1 s2).entries
    (initialSummary s1 s2) = summary
  cases hmv : moveOuter (summary.deleted.length + 1) summary.deleted summary.added
      summary.moved 0 with
  | error e =>
    intro hok
    simp only [hmv] at hok
    exact absurd hok (by simp)
  | ok res =>
    obtain ⟨d2, a2, m2⟩ := res
    intro hok
    simp only [hmv] at hok
    cases hok
    have : summary.period = (initialSummary s1 s2).period := by
      rw [← hsum, diffStage_period]
    simp [this, initialSummary]

/-- Witness for C4: the Report of a concrete comparison carries the two
timestamps in `createdAt` order (here the older snapshot is the second
argument). -/
theorem c4_report_period_witness :
    (({ period := ⟨"2024-01-01T00:00:00.000Z", "2024-01-02T00:00:00.000Z"⟩ } : Report).period.start =
      (olderOf
        ⟨⟨"/r", "2024-01-02T00:00:00.000Z"⟩, []⟩
        ⟨⟨"/r", "2024-01-01T00:00:00.000Z"⟩, []⟩).header.createdAt) ∧
    (({ period := ⟨"2024-01-01T00:00:00.000Z", "2024-01-02T00:00:00.000Z"⟩ } : Report).period.«end» =
      (newerOf
        ⟨⟨"/r", "2024-01-02T00:00:00.000Z"⟩, []⟩
        ⟨⟨"/r", "2024-01-01T00:00:00.000Z"⟩, []⟩).header.createdAt) :=
  c4_report_period
    ⟨⟨"/r", "2024-01-02T00:00:00.000Z"⟩, []⟩
    ⟨⟨"/r", "2024-01-01T00:00:00.000Z"⟩, []⟩
    { period := ⟨"2024-01-01T00:00:00.000Z", "2024-01-02T00:00:00.000Z"⟩ }
    rfl

/-- C5: `compareSnapshots` rejects, yielding no Report at all, whenever the
root paths differ or the creation timestamps coincide; and a Report is only
ever produced when the root paths match and the timestamps differ. -/
theorem c5_compare_preconditions (s1 s2 : SnapshotData) :
    (s1.header.rootPath ≠ s2.header.rootPath →
      exceptIsOk (compareSnapshots s1 s2) = false) ∧
    (s1.header.createdAt = s2.header.createdAt →
      exceptIsOk (compareSnapshots s1 s2) = false) ∧
    (exceptIsOk (compareSnapshots s1 s2) = true →
      s1.header.rootPath = s2.header.rootPath ∧
      s1.header.createdAt ≠ s2.header.createdAt) := by
  refine ⟨fun h => ?_, fun h => ?_, fun h => ?_⟩
  · unfold compareSnapshots
    rw [if_pos h]
    rfl
  · unfold compareSnapshots
    by_cases hr : s1.header.rootPath ≠ s2.header.rootPath
    · rw [if_pos hr]; rfl
    · rw [if_neg hr, if_pos h]; rfl
  · constructor
    · by_contra hr
      unfold compareSnapshots at h
      rw [if_pos hr] at h
      exact absurd h (by simp [exceptIsOk])
    · intro hceq
      unfold compareSnapshots at h
      by_cases hr : s1.header.rootPath ≠ s2.header.rootPath
      · rw [if_pos hr] at h
        exact absurd h (by simp [exceptIsOk])
      · rw [if_neg hr, if_pos hceq] at h
        exact absurd h (by simp [exceptIsOk])

/-- Witness for C5: a root-path mismatch rejects, an equal-timestamp pair
rejects, and from a successful concrete comparison the preconditions are
recovered. -/
theorem c5_compare_preconditions_witness :
    exceptIsOk (compareSnapshots
      ⟨⟨"/r", "2024-01-01T00:00:00.000Z"⟩, []⟩
      ⟨⟨"/q", "2024-01-02T00:00:00.000Z"⟩, []⟩) = false ∧
    exceptIsOk (compareSnapshots
      ⟨⟨"/r", "2024-01-01T00:00:00.000Z"⟩, []⟩
      ⟨⟨"/r", "2024-01-01T00:00:00.000Z"⟩, []⟩) = false ∧
    ((⟨⟨"/r", "2024-01-01T00:00:00.000Z"⟩, []⟩ : SnapshotData).header.rootPath =
        (⟨⟨"/r", "2024-01-02T00:00:00.000Z"⟩, []⟩ : SnapshotData).header.rootPath ∧
      (⟨⟨"/r", "2024-01-01T00:00:00.000Z"⟩, []⟩ : SnapshotData).header.createdAt ≠
        (⟨⟨"/r", "2024-01-02T00:00:00.000Z"⟩, []⟩ : SnapshotData).header.createdAt) :=
  ⟨(c5_compare_preconditions _ _).1 (by decide),
   (c5_compare_preconditions _ _).2.1 rfl,
   (c5_compare_preconditions
      ⟨⟨"/r", "2024-01-01T00:00:00.000Z"⟩, []⟩
      ⟨⟨"/r", "2024-01-02T00:00:00.000Z"⟩, []⟩).2.2 rfl⟩

theorem processItems_nil (excl : List ExcludeRule) (depth : Option Nat)
    (p : String) (d : Nat) : processItems excl depth p d [] = ([], none) := by
  rw [processItems.eq_def]

theorem allReadable_nil : allReadable [] = true := by
  rw [allReadable.eq_def]

theorem allReadable_cons_file (name ctime mtime : String) (size : Nat) (sha256 : String)
    (rest : List FsNode) :
    allReadable (.file name ctime mtime size sha256 :: rest) = allReadable rest := by
  rw [allReadable.eq_def]

theorem allReadable_cons_dir (name ctime mtime : String) (readable : Bool)
    (children rest : List FsNode) :
    allReadable (.dir name ctime mtime readable children :: rest) =
      (readable && allReadable children && allReadable rest) := by
  rw [allReadable.eq_def]

theorem dfsAll_nil (p : String) (d : Nat) : dfsAll p d [] = [] := by
  rw [dfsAll.eq_def]

theorem dfsAll_cons_file (p : String) (d : Nat) (name ctime mtime : String) (size : Nat)
    (sha256 : String) (rest : List FsNode) :
    dfsAll p d (.file name ctime mtime size sha256 :: rest) =
      mkRecord (p ++ "/" ++ name) d (.file name ctime mtime size sha256) :: dfsAll p d rest := by
  rw [dfsAll.eq_def]

theorem dfsAll_cons_dir (p : String) (d : Nat) (name ctime mtime : String) (readable : Bool)
    (children rest : List FsNode) :
    dfsAll p d (.dir name ctime mtime readable children :: rest) =
      mkRecord (p ++ "/" ++ name) d (.dir name ctime mtime readable children)
        :: (dfsAll (p ++ "/" ++ name) (d + 1) children ++ dfsAll p d rest) := by
  rw [dfsAll.eq_def]

theorem fileEntryToJObj_shape (e : FileEntry) :
    isDirectoryEntry (fileEntryToJObj e) = true ∧ isFooter (fileEntryToJObj e) = false := by
  obtain ⟨p, t, sz, c, m, sh, d⟩ := e
  cases sz <;> cases sh <;> constructor <;> rfl

set_option linter.unnecessarySeqFocus false in
theorem processItems_error_shape (excl : List ExcludeRule) (depth : Option Nat) :
    ∀ (curPath : String) (curDepth : Nat) (items : List FsNode) (msg : String),
      (processItems excl depth curPath curDepth items).2 = some msg →
      ∃ p, msg = "EACCES: permission denied, scandir " ++ p := by
  intro curPath curDepth items
  induction curPath, curDepth, items using processItems.induct excl depth <;>
    intro msg hmsg <;>
    rw [processItems.eq_def] at hmsg <;>
    simp_all <;>
    aesop

theorem dfsAll_depth_ge :
    ∀ (curPath : String) (curDepth : Nat) (items : List FsNode) (e : FileEntry),
      e ∈ dfsAll curPath curDepth items → curDepth ≤ e.depth := by
  intro curPath curDepth items
  induction curPath, curDepth, items using dfsAll.induct with
  | case1 cp cd =>
    intro e he
    rw [dfsAll.eq_def] at he
    simp at he
  | case2 cp cd rest name ctime mtime size sha256 ih =>
    intro e he
    rw [dfsAll.eq_def] at he
    simp only [List.mem_cons] at he
    rcases he with rfl | hm
    · simp [mkRecord]
    · exact ih e hm
  | case3 cp cd rest name ctime mtime readable children absPath ih1 ih2 =>
    intro e he
    rw [dfsAll.eq_def] at he
    simp only [List.mem_cons, List.mem_append] at he
    rcases he with rfl | hm | hm
    · simp [mkRecord]
    · exact Nat.le_of_succ_le (ih1 e hm)
    · exact ih2 e hm

theorem processItems_depth_filter (m : Nat) :
    ∀ (curPath : String) (curDepth : Nat) (items : List FsNode),
      allReadable items = true → curDepth ≤ m →
      processItems [] (some m) curPath curDepth items =
        ((dfsAll curPath curDepth items).filter (fun e => e.depth ≤ m), none) := by
  intro curPath curDepth items
  induction curPath, curDepth, items using processItems.induct ([] : List ExcludeRule) (some m) with
  | case1 cp cd =>
    intro _ _
    simp [processItems.eq_def, dfsAll.eq_def]
  | case2 cp cd item rest absPath hex ih =>
    intro _ _
    exact absurd hex (by simp [shouldExclude])
  | case3 cp cd rest name ctime mtime size sha256 tail err hproc absPath hnex ih =>
    intro hread hle
    rw [allReadable.eq_def] at hread
    simp only [] at hread
    have h2 := ih hread hle
    rw [hproc] at h2
    rw [processItems.eq_def, dfsAll.eq_def]
    simp only [shouldExclude, List.any_nil, Bool.false_eq_true, if_false, hproc, if_neg]
    rw [List.filter_cons]
    rw [Prod.mk.injEq] at h2
    simp [h2.1, h2.2, mkRecord, hle]
  | case4 cp cd rest name ctime mtime readable children hbd tail err hproc absPath hnex hex ih =>
    exact absurd hex hnex
  | case5 cp cd rest name ctime mtime children hbd absPath hnex1 hnex2 =>
    intro hread hle
    rw [allReadable.eq_def] at hread
    simp at hread
  | case6 cp cd rest name ctime mtime readable children hbd hrd tail e absPath hnex1 hnex2 hsub ihc =>
    intro hread hle
    rw [allReadable.eq_def] at hread
    simp only [Bool.and_eq_true] at hread
    have hbd2 : cd < m := by simpa [belowDepth] using hbd
    have h2 := ihc hread.1.2 (by omega)
    rw [hsub] at h2
    simp at h2
  | case7 cp cd rest name ctime mtime readable children hbd hrd tail tail1 err hproc absPath hnex1 hnex2 hsub ihc ihr =>
    intro hread hle
    rw [allReadable.eq_def] at hread
    simp only [Bool.and_eq_true] at hread
    have hbd2 : cd < m := by simpa [belowDepth] using hbd
    have hc := ihc hread.1.2 (by omega)
    rw [hsub] at hc
    have hr := ihr hread.2 hle
    rw [hproc] at hr
    rw [Prod.mk.injEq] at hc hr
    rw [processItems.eq_def, dfsAll.eq_def]
    simp only [shouldExclude, List.any_nil, Bool.false_eq_true, if_false, if_neg, hbd,
      if_true, hsub, hproc]
    rw [List.filter_cons, List.filter_append]
    simp [mkRecord, hle, hc.1, hr.1, hr.2, hread.1.1]
  | case8 cp cd rest name ctime mtime readable children hnbd tail err hproc absPath hnex ihr =>
    intro hread hle
    rw [allReadable.eq_def] at hread
    simp only [Bool.and_eq_true] at hread
    have hbd2 : ¬cd < m := by simpa [belowDepth] using hnbd
    have hr := ihr hread.2 hle
    rw [hproc] at hr
    rw [Prod.mk.injEq] at hr
    have hchild : (dfsAll (cp ++ "/" ++ name) (cd + 1) children).filter
        (fun e => e.depth ≤ m) = [] := by
      rw [List.filter_eq_nil_iff]
      intro e he
      have := dfsAll_depth_ge _ _ _ e he
      simp only [decide_eq_true_eq]
      omega
    rw [processItems.eq_def, dfsAll.eq_def]
    simp only [shouldExclude, List.any_nil, Bool.false_eq_true, if_false, if_neg, hnbd, hproc]
    rw [List.filter_cons, List.filter_append, hchild]
    simp [mkRecord, hle, hr.1, hr.2]

/-- C8: scanning `root/a/b/c/file.txt` with `maxDepth = 1` records exactly
`root/a` (depth 0) and `root/a/b` (depth 1), never `root/a/b/c` or
`file.txt`; and in general, on a fully readable unexcluded tree, the
traversal with `maxDepth = m` emits exactly the nodes of depth at most `m`,
in depth-first preorder — each directory's record ahead of its children's —
with recursion cut off below the bound while the bounding directory's own
record is kept. -/
theorem c8_depth_limiting :
    processDirectory [] (some 1) "/root" true
      [.dir "a" "c" "m" true [.dir "b" "c" "m" true [.dir "c" "c" "m" true
        [.file "file.txt" "c" "m" 4 "h"]]]] =
      ([⟨"/root/a", "directory", none, "c", "m", none, 0⟩,
        ⟨"/root/a/b", "directory", none, "c", "m", none, 1⟩], none) ∧
    (∀ (m : Nat) (rootPath : String) (items : List FsNode),
      allReadable items = true →
      processDirectory [] (some m) rootPath true items =
        ((dfsAll rootPath 0 items).filter (fun e => e.depth ≤ m), none)) := by
  constructor
  · rw [processDirectory]
    simp only [shouldExclude, List.any_nil, Bool.false_eq_true, if_false, Bool.true_eq_false]
    rw [processItems.eq_def]
    simp only [shouldExclude, List.any_nil, Bool.false_eq_true, if_false, belowDepth,
      mkRecord, Bool.true_eq_false]
    rw [processItems.eq_def]
    simp only [shouldExclude, List.any_nil, Bool.false_eq_true, if_false, belowDepth,
      mkRecord, Bool.true_eq_false]
    rw [processItems.eq_def]
    simp only [shouldExclude, List.any_nil, Bool.false_eq_true, if_false, belowDepth,
      mkRecord, Bool.true_eq_false]
    simp [processItems_nil]
  · intro m rootPath items hread
    rw [processDirectory]
    simp only [shouldExclude, List.any_nil, Bool.false_eq_true, if_false, Bool.true_eq_false]
    exact processItems_depth_filter m rootPath 0 items hread (Nat.zero_le m)

/-- Witness for C8's general part at a concrete readable tree. -/
theorem c8_depth_limiting_witness :
    processDirectory [] (some 1) "/r2" true
      [.dir "d" "c" "m" true [.file "x" "c" "m" 1 "h"]] =
      ((dfsAll "/r2" 0 [.dir "d" "c" "m" true [.file "x" "c" "m" 1 "h"]]).filter
        (fun e => e.depth ≤ 1), none) :=
  c8_depth_limiting.2 1 "/r2" _
    (by simp [allReadable_cons_dir, allReadable_cons_file, allReadable_nil])

theorem validateLoop_entries (ws : List String) (rest : List Line) :
    ∀ (objs : List JObj), (∀ o ∈ objs, isFooter o = false ∧ isDirectoryEntry o = true) →
      validateLoop .expectFooterOrEntry ws (objs.map Line.obj ++ rest) =
        validateLoop .expectFooterOrEntry ws rest
  | [], _ => rfl
  | o :: objs, hok => by
    have h1 := hok o (List.mem_cons_self o objs)
    simp only [List.map_cons, List.cons_append, validateLoop, h1.1, h1.2, Bool.false_eq_true,
      if_false, if_true]
    exact validateLoop_entries ws rest objs (fun x hx => hok x (List.mem_cons_of_mem o hx))

theorem eaccesMsg_ne_empty (p : String) :
    ("EACCES: permission denied, scandir " ++ p) ≠ "" := by
  intro h
  have h2 : ("EACCES: permission denied, scandir " ++ p).length = 0 := by rw [h]; rfl
  rw [String.length_append] at h2
  simp only [Nat.add_eq_zero] at h2
  exact absurd h2.1 (by decide)

theorem processDirectory_error_shape (excl : List ExcludeRule) (depth : Option Nat)
    (rootPath : String) (rootReadable : Bool) (items : List FsNode) (msg : String)
    (h : (processDirectory excl depth rootPath rootReadable items).2 = some msg) :
    ∃ p, msg = "EACCES: permission denied, scandir " ++ p := by
  unfold processDirectory at h
  by_cases h1 : shouldExclude rootPath excl = true
  · rw [if_pos h1] at h
    cases h
  · rw [if_neg h1] at h
    by_cases h2 : rootReadable = false
    · rw [if_pos h2] at h
      simp only [Option.some.injEq] at h
      exact ⟨rootPath, h.symm⟩
    · rw [if_neg h2] at h
      exact processItems_error_shape excl depth rootPath 0 items msg h

/-- C9: validating any proper prefix of the snapshot grammar succeeds — the
empty file, a lone valid header, and a valid header followed by entry lines
with no footer all validate to `true`, because the loop declares validity
whenever it runs out of lines without a per-line violation; entry records
never look like footers; and the exported `scanToFile` really produces such
footer-less files (header line, then entry lines, nothing else). -/
theorem c9_prefix_validates :
    validateSnapshot [] = true ∧
    (∀ (h : JObj) (objs : List JObj), isHeader h = true →
      (∀ o ∈ objs, isFooter o = false ∧ isDirectoryEntry o = true) →
      validateSnapshot (Line.obj h :: objs.map Line.obj) = true) ∧
    (∀ (e : FileEntry), isFooter (fileEntryToJObj e) = false) ∧
    (∀ (createdAt machineId : String) (metadata : JObj) (rootPath : String)
       (rootReadable : Bool) (items : List FsNode) (excl : List ExcludeRule)
       (maxDepth : Option Nat),
      isHeader (snapshotHeaderObj createdAt machineId rootPath metadata) = true →
      validateSnapshot (scanToFile createdAt machineId metadata rootPath rootReadable
        items excl maxDepth).1 = true) := by
  have key : ∀ (h : JObj) (objs : List JObj), isHeader h = true →
      (∀ o ∈ objs, isFooter o = false ∧ isDirectoryEntry o = true) →
      validateSnapshot (Line.obj h :: objs.map Line.obj) = true := by
    intro h objs hH hobjs
    unfold validateSnapshot validateSnapshotRun
    simp only [validateLoop, hH, if_true]
    have := validateLoop_entries [] [] objs hobjs
    rw [List.append_nil] at this
    rw [this]
    rfl
  refine ⟨rfl, key, fun e => (fileEntryToJObj_shape e).2, ?_⟩
  intro createdAt machineId metadata rootPath rootReadable items excl maxDepth hH
  unfold scanToFile
  simp only []
  have hmap : (processDirectory excl maxDepth rootPath rootReadable items).1.map
        (fun e => Line.obj (fileEntryToJObj e)) =
      ((processDirectory excl maxDepth rootPath rootReadable items).1.map
        fileEntryToJObj).map Line.obj := by
    rw [List.map_map]
    rfl
  rw [hmap]
  exact key _ _ hH (by
    intro o ho
    simp only [List.mem_map] at ho
    obtain ⟨e, _, rfl⟩ := ho
    exact ⟨(fileEntryToJObj_shape e).2, (fileEntryToJObj_shape e).1⟩)

/-- Witness for C9 at a concrete header, a concrete footer-less entry list,
and a concrete `scanToFile` run. -/
theorem c9_prefix_validates_witness :
    validateSnapshot
      [Line.obj [("version", .str "1.0"), ("type", .str "dir-snapshot"),
         ("createdAt", .str "2024-01-01T00:00:00.000Z"), ("machineId", .str "m"),
         ("rootPath", .str "/r")],
       Line.obj [("path", .str "/r/a"), ("type", .str "file"), ("ctime", .str "c"),
         ("mtime", .str "m"), ("depth", JVal.num 0)]] = true ∧
    validateSnapshot (scanToFile "2024-01-01T00:00:00.000Z" "m" [] "/r" true
      [] [] none).1 = true :=
  ⟨c9_prefix_validates.2.1
      [("version", .str "1.0"), ("type", .str "dir-snapshot"),
       ("createdAt", .str "2024-01-01T00:00:00.000Z"), ("machineId", .str "m"),
       ("rootPath", .str "/r")]
      [[("path", .str "/r/a"), ("type", .str "file"), ("ctime", .str "c"),
        ("mtime", .str "m"), ("depth", JVal.num 0)]]
      (by decide) (by decide),
   c9_prefix_validates.2.2.2 "2024-01-01T00:00:00.000Z" "m" [] "/r" true [] [] none
      (by decide)⟩

/-- C6: provided the caller metadata leaves the merged header a valid header
line, every `createSnapshot` run that reports overall success produces a
file the validator accepts, and every run that fails produces an
error-footed file the validator rejects, with the footer's message surfaced
in the validator's warning output. -/
theorem c6_writer_validator_agreement
    (createdAt machineId : String) (metadata : JObj) (rootPath : String)
    (rootReadable : Bool) (items : List FsNode) (excl : List ExcludeRule)
    (maxDepth : Option Nat)
    (hH : isHeader (snapshotHeaderObj createdAt machineId rootPath metadata) = true) :
    ((createSnapshot createdAt machineId metadata rootPath rootReadable items excl
        maxDepth).2 = true →
      validateSnapshot (createSnapshot createdAt machineId metadata rootPath rootReadable
        items excl maxDepth).1 = true) ∧
    ((createSnapshot createdAt machineId metadata rootPath rootReadable items excl
        maxDepth).2 = false →
      validateSnapshot (createSnapshot createdAt machineId metadata rootPath rootReadable
        items excl maxDepth).1 = false ∧
      ∃ msg, (processDirectory excl maxDepth rootPath rootReadable items).2 = some msg ∧
        ("Snapshot has message: " ++ msg) ∈
          (validateSnapshotRun (createSnapshot createdAt machineId metadata rootPath
            rootReadable items excl maxDepth).1).2) := by
  have hskip : ∀ (records : List FileEntry) (ws : List String) (rest : List Line),
      validateLoop .expectFooterOrEntry ws
        (records.map (fun e => Line.obj (fileEntryToJObj e)) ++ rest) =
      validateLoop .expectFooterOrEntry ws rest := by
    intro records ws rest
    have hmap : records.map (fun e => Line.obj (fileEntryToJObj e)) =
        (records.map fileEntryToJObj).map Line.obj := by
      rw [List.map_map]
      rfl
    rw [hmap]
    apply validateLoop_entries
    intro o ho
    simp only [List.mem_map] at ho
    obtain ⟨e, _, rfl⟩ := ho
    exact ⟨(fileEntryToJObj_shape e).2, (fileEntryToJObj_shape e).1⟩
  rcases hpd : processDirectory excl maxDepth rootPath rootReadable items with ⟨records, err⟩
  unfold createSnapshot
  rw [hpd]
  cases err with
  | none =>
    simp only []
    refine ⟨fun _ => ?_, fun hc => by cases hc⟩
    unfold validateSnapshot validateSnapshotRun
    simp only [List.cons_append, List.append_eq, validateLoop, hH, if_true]
    rw [hskip records [] [Line.obj [("status", .str "success")]]]
    simp [validateLoop, isFooter, hasProperties, getField]
  | some msg =>
    simp only []
    refine ⟨fun hc => ?_, fun _ => ?_⟩
    · exact absurd hc (by simp)
    obtain ⟨p, hmsgeq⟩ := processDirectory_error_shape excl maxDepth rootPath rootReadable
      items msg (by rw [hpd])
    have hmsgne : msg ≠ "" := by rw [hmsgeq]; exact eaccesMsg_ne_empty p
    constructor
    · unfold validateSnapshot validateSnapshotRun
      simp only [List.cons_append, List.append_eq, validateLoop, hH, if_true]
      rw [hskip records [] [Line.obj [("status", .str "error"), ("message", .str msg)]]]
      simp [validateLoop, isFooter, hasProperties, getField, truthy, hmsgne]
    · refine ⟨msg, by simp [hpd], ?_⟩
      unfold validateSnapshotRun
      simp only [List.cons_append, List.append_eq, validateLoop, hH, if_true]
      rw [hskip records [] [Line.obj [("status", .str "error"), ("message", .str msg)]]]
      simp [validateLoop, isFooter, hasProperties, getField, truthy, hmsgne, jvalText]

/-- C6 fails as stated without the metadata proviso: caller metadata that
overwrites the reserved `type` field yields a `createSnapshot` run that
reports success while the validator rejects the file. -/
theorem c6_metadata_counterexample :
    (createSnapshot "2024-01-01T00:00:00.000Z" "m1" [("type", JVal.str "boom")] "/r" true
      [] [] none).2 = true ∧
    validateSnapshot (createSnapshot "2024-01-01T00:00:00.000Z" "m1"
      [("type", JVal.str "boom")] "/r" true [] [] none).1 = false := by
  have hcs : createSnapshot "2024-01-01T00:00:00.000Z" "m1" [("type", JVal.str "boom")]
      "/r" true [] [] none =
      ([Line.obj (snapshotHeaderObj "2024-01-01T00:00:00.000Z" "m1" "/r"
          [("type", JVal.str "boom")]),
        Line.obj [("status", JVal.str "success")]], true) := by
    unfold createSnapshot
    rw [show processDirectory [] none "/r" true [] = ([], none) from by
      unfold processDirectory
      simp [shouldExclude, processItems_nil]]
    rfl
  rw [hcs]
  constructor
  · rfl
  · decide

/-- Witness for C6 at concrete runs: a successful scan validates true, and a
scan whose root cannot be read produces an error-footed file that validates
false with its message surfaced. -/
theorem c6_writer_validator_agreement_witness :
    validateSnapshot (createSnapshot "2024-01-01T00:00:00.000Z" "m" [] "/r" true
      [] [] none).1 = true ∧
    (validateSnapshot (createSnapshot "2024-01-01T00:00:00.000Z" "m" [] "/r" false
      [] [] none).1 = false ∧
      ∃ msg, (processDirectory [] none "/r" false []).2 = some msg ∧
        ("Snapshot has message: " ++ msg) ∈
          (validateSnapshotRun (createSnapshot "2024-01-01T00:00:00.000Z" "m" [] "/r"
            false [] [] none).1).2) :=
  ⟨(c6_writer_validator_agreement "2024-01-01T00:00:00.000Z" "m" [] "/r" true [] [] none
      (by decide)).1
      (by
        unfold createSnapshot
        rw [show processDirectory [] none "/r" true [] = ([], none) from by
          unfold processDirectory
          simp [shouldExclude, processItems_nil]]),
   (c6_writer_validator_agreement "2024-01-01T00:00:00.000Z" "m" [] "/r" false [] [] none
      (by decide)).2
      (by
        unfold createSnapshot
        rw [show processDirectory [] none "/r" false [] =
            ([], some ("EACCES: permission denied, scandir " ++ "/r")) from by
          unfold processDirectory
          simp [shouldExclude]])⟩

/-- C10: `Snapshot.open` is all-or-nothing.  When validation fails it
throws, leaving the instance unopened; when validation and reading both
succeed it resolves `true` with header, entries and footer populated from
the file; and it resolves `false` exactly when reading fails after a
successful validation, in which case the instance stays unopened and all
three accessors still throw. -/
theorem c10_open_all_or_nothing (st : SnapshotState) (lines : List Line)
    (hcl : st.isOpened = false) :
    (validateSnapshot lines = false →
      snapshotOpen st lines = .error "Snapshot file is invalid.") ∧
    (∀ st2, snapshotOpen st lines = .ok (st2, true) →
      st2.isOpened = true ∧
      ∃ h es f, readSnapshot lines = .ok (h, es, f) ∧
        st2.header = some h ∧ st2.entries = es ∧ st2.footer = some f) ∧
    (∀ st2, snapshotOpen st lines = .ok (st2, false) →
      validateSnapshot lines = true ∧
      (∃ e, readSnapshot lines = .error e) ∧
      st2.isOpened = false ∧
      snapshotHeaderGet st2 = .error "Snapshot is not opened." ∧
      snapshotEntriesGet st2 = .error "Snapshot is not opened." ∧
      snapshotFooterGet st2 = .error "Snapshot is not opened.") := by
  unfold snapshotOpen
  rw [if_neg (by rw [hcl]; exact Bool.false_ne_true)]
  cases hv : validateSnapshot lines with
  | false =>
    rw [if_pos rfl]
    refine ⟨fun _ => rfl, fun st2 h2 => ?_, fun st2 h2 => ?_⟩
    · cases h2
    · cases h2
  | true =>
    rw [if_neg (by simp)]
    cases hr : readSnapshot lines with
    | ok res =>
      obtain ⟨h, es, f⟩ := res
      simp only []
      refine ⟨fun hc => ?_, fun st2 h2 => ?_, fun st2 h2 => ?_⟩
      · cases hc
      · cases h2
        exact ⟨rfl, ⟨h, es, f, rfl, rfl, rfl, rfl⟩⟩
      · cases h2
    | error e =>
      simp only []
      refine ⟨fun hc => ?_, fun st2 h2 => ?_, fun st2 h2 => ?_⟩
      · cases hc
      · cases h2
      · cases h2
        exact ⟨trivial, ⟨e, rfl⟩, rfl, rfl, rfl, rfl⟩

/-- Witness for C10: an unparseable file makes `open` throw; a complete
valid file opens and populates the instance; an empty file validates but
fails to read, so `open` resolves false with the accessors still throwing. -/
theorem c10_open_all_or_nothing_witness :
    snapshotOpen snapshotInit [Line.bad] = .error "Snapshot file is invalid." ∧
    ((⟨true,
        some [("version", .str "1.0"), ("type", .str "dir-snapshot"),
          ("createdAt", .str "2024-01-01T00:00:00.000Z"), ("machineId", .str "m"),
          ("rootPath", .str "/r")], [],
        some [("status", .str "success")]⟩ : SnapshotState).isOpened = true ∧
      ∃ h es f,
        readSnapshot
          [Line.obj [("version", .str "1.0"), ("type", .str "dir-snapshot"),
             ("createdAt", .str "2024-01-01T00:00:00.000Z"), ("machineId", .str "m"),
             ("rootPath", .str "/r")],
           Line.obj [("status", .str "success")]] = .ok (h, es, f) ∧
        (⟨true,
           some [("version", .str "1.0"), ("type", .str "dir-snapshot"),
             ("createdAt", .str "2024-01-01T00:00:00.000Z"), ("machineId", .str "m"),
             ("rootPath", .str "/r")], [],
           some [("status", .str "success")]⟩ : SnapshotState).header = some h ∧
        (⟨true,
           some [("version", .str "1.0"), ("type", .str "dir-snapshot"),
             ("createdAt", .str "2024-01-01T00:00:00.000Z"), ("machineId", .str "m"),
             ("rootPath", .str "/r")], [],
           some [("status", .str "success")]⟩ : SnapshotState).entries = es ∧
        (⟨true,
           some [("version", .str "1.0"), ("type", .str "dir-snapshot"),
             ("createdAt", .str "2024-01-01T00:00:00.000Z"), ("machineId", .str "m"),
             ("rootPath", .str "/r")], [],
           some [("status", .str "success")]⟩ : SnapshotState).footer = some f) ∧
    (validateSnapshot [] = true ∧
      (∃ e, readSnapshot ([] : List Line) = .error e) ∧
      (⟨false, none, [], none⟩ : SnapshotState).isOpened = false ∧
      snapshotHeaderGet ⟨false, none, [], none⟩ = .error "Snapshot is not opened." ∧
      snapshotEntriesGet ⟨false, none, [], none⟩ = .error "Snapshot is not opened." ∧
      snapshotFooterGet ⟨false, none, [], none⟩ = .error "Snapshot is not opened.") :=
  ⟨(c10_open_all_or_nothing snapshotInit [Line.bad] rfl).1 (by decide),
   (c10_open_all_or_nothing snapshotInit
      [Line.obj [("version", .str "1.0"), ("type", .str "dir-snapshot"),
         ("createdAt", .str "2024-01-01T00:00:00.000Z"), ("machineId", .str "m"),
         ("rootPath", .str "/r")],
       Line.obj [("status", .str "success")]] rfl).2.1 _ rfl,
   (c10_open_all_or_nothing snapshotInit [] rfl).2.2 ⟨false, none, [], none⟩ rfl⟩
